import Mathlib

/-!
Shallow embedding of the Argus call-graph subsystem of the `recon-extension`
repository (generateCallGraph.ts, argusEditorProvider.ts) together with the
parts of its environment that the verified properties depend on.  Pure string
manipulation (HTML escaping, the sanitizer's regex passes, path matching) is
translated character-by-character from the TypeScript source; stateful parts
(the AST cache, the webview generation counter) are translated into explicit
state passing; fallible operations return `Option`/`Except`.
-/

namespace ArgusVerify

/-- JS character class `[a-zA-Z]` as used by the sanitizer regex. -/
def isAsciiLetter (c : Char) : Bool :=
  ('a' ≤ c && c ≤ 'z') || ('A' ≤ c && c ≤ 'Z')

/-- JS `\s`, restricted to the ASCII whitespace characters. -/
def isJsSpace (c : Char) : Bool :=
  c == ' ' || c == '\t' || c == '\n' || c == '\r' || c == '\x0b' || c == '\x0c'

/-- One character of `escapeHtml` (generateCallGraph.ts line 190):
`str.replace(/[&<>"']/g, c => ({'&':'&amp;','<':'&lt;','>':'&gt;','"':'&quot;','\'':'&#39;'}[c]))`. -/
def escapeHtmlChar (c : Char) : List Char :=
  if c == '&' then "&amp;".data
  else if c == '<' then "&lt;".data
  else if c == '>' then "&gt;".data
  else if c == '"' then "&quot;".data
  else if c == '\'' then "&#39;".data
  else [c]

/-- `escapeHtml` from generateCallGraph.ts. -/
def escapeHtml (s : String) : String := ⟨(s.data.map escapeHtmlChar).flatten⟩

/-- Substring test on character lists (JS `String.prototype.includes`). -/
def hasSubL (needle : List Char) : List Char → Bool
  | [] => needle.isEmpty
  | c :: t => needle.isPrefixOf (c :: t) || hasSubL needle t

/-- JS `haystack.includes(needle)`. -/
def hasSubS (s pat : String) : Bool := hasSubL pat.data s.data

/-- JS `String.prototype.replace` with a plain-string pattern: replace the
first occurrence only. -/
def replaceFirstL (needle repl : List Char) : List Char → List Char
  | [] => []
  | c :: t =>
    if needle.isPrefixOf (c :: t) then repl ++ (c :: t).drop needle.length
    else c :: replaceFirstL needle repl t

/-- JS `s.replace(needle, repl)` for a plain-string `needle`. -/
def replaceFirstS (s needle repl : String) : String :=
  ⟨replaceFirstL needle.data repl.data s.data⟩

/-- Regex piece `[^"]*"`: consume up to and including the next double quote,
returning the remainder (`none` when no closing quote exists). -/
def closeQuoteRest : List Char → Option (List Char)
  | [] => none
  | c :: cs => if c == '"' then some cs else closeQuoteRest cs

/-- Regex piece `[a-zA-Z]*="[^"]*"` (the part of the handler-attribute pattern
after `\son` and one mandatory letter). -/
def lettersEqRest : List Char → Option (List Char)
  | [] => none
  | c :: cs =>
    if isAsciiLetter c then lettersEqRest cs
    else if c == '=' then
      match cs with
      | '"' :: rest => closeQuoteRest rest
      | _ => none
    else none

/-- Remainder after a match of `/\son[a-zA-Z]+="[^"]*"/` anchored at the head
of the list (the pattern is backtracking-free: letters, `=`, and `"` are
pairwise disjoint, so the deterministic parse equals the regex semantics). -/
def onAttrRest : List Char → Option (List Char)
  | s :: 'o' :: 'n' :: c :: cs =>
    if isJsSpace s && isAsciiLetter c then lettersEqRest cs else none
  | _ => none

/-- Does a match of the inline-handler pattern `\son[a-zA-Z]+="[^"]*"` start
anywhere in the list? -/
def hasOnAttrL : List Char → Bool
  | [] => false
  | c :: cs => (onAttrRest (c :: cs)).isSome || hasOnAttrL cs

/-- Does the string contain an inline event-handler attribute (a match of the
sanitizer's own pattern `\son[a-zA-Z]+="[^"]*"`)? -/
def hasOnAttr (s : String) : Bool := hasOnAttrL s.data

/-- One left-to-right pass of JS `String.replace(regex-with-g-flag, '')`:
at each position, if a match starts there it is dropped and scanning resumes
after it, otherwise the character is kept.  The first list is fuel that keeps
the recursion structural; instantiating it with the scanned list itself is
enough, because every match consumes at least one character. -/
def stripGo (matchRest : List Char → Option (List Char)) : List Char → List Char → List Char
  | _, [] => []
  | [], l => l
  | _ :: fuel, c :: t =>
    match matchRest (c :: t) with
    | some r => stripGo matchRest fuel r
    | none => c :: stripGo matchRest fuel t

/-- `html.replace(/\son[a-zA-Z]+="[^"]*"/g, '')` (generateCallGraph.ts line 196). -/
def stripOnAttrs (s : String) : String := ⟨stripGo onAttrRest s.data s.data⟩

/-- ASCII lowercasing of a character list (for the `i` regex flag). -/
def lowerL (l : List Char) : List Char := l.map Char.toLower

/-- Case-insensitive anchored test: `needle` (given lowercase) begins `hay`. -/
def ciBeginsWith (needle hay : List Char) : Bool :=
  needle.isPrefixOf (lowerL (hay.take needle.length))

/-- Remainder after a match of `/<link[^>]*prism[^>]*>/i` anchored at the head:
`<link`, then the maximal `>`-free run, which must contain `prism`
(case-insensitively), then `>`. -/
def linkPrismRest (l : List Char) : Option (List Char) :=
  if ciBeginsWith "<link".data l then
    let rest := l.drop 5
    let run := rest.takeWhile (fun c => c != '>')
    if hasSubL "prism".data (lowerL run) then
      match rest.drop run.length with
      | '>' :: more => some more
      | _ => none
    else none
  else none

/-- Remainder after a match of `/<script[^>]*prism[^>]*><\/script>/i` anchored
at the head. -/
def scriptPrismRest (l : List Char) : Option (List Char) :=
  if ciBeginsWith "<script".data l then
    let rest := l.drop 7
    let run := rest.takeWhile (fun c => c != '>')
    if hasSubL "prism".data (lowerL run) then
      match rest.drop run.length with
      | '>' :: more =>
        if ciBeginsWith "</script>".data more then some (more.drop 9) else none
      | _ => none
    else none
  else none

/-- `sanitizeGraphHtml` (generateCallGraph.ts lines 194-201): strip inline
`on*="..."` handler attributes, then `<link ... prism ... >` tags, then
`<script ... prism ... ></script>` tags — each as one global regex pass. -/
def sanitizeGraphHtml (s : String) : String :=
  let h1 := stripOnAttrs s
  let h2 : String := ⟨stripGo linkPrismRest h1.data h1.data⟩
  ⟨stripGo scriptPrismRest h2.data h2.data⟩

/-- The click-delegation script inlined by `injectPrism`
(generateCallGraph.ts lines 207-235). -/
def delegationJs : String :=
  "document.addEventListener('click', function(e)\x7b\n"
  ++ "    var target = e.target;\n"
  ++ "    if(!target) return;\n"
  ++ "    var el = (target.closest && target.closest('[data-action]')) || null;\n"
  ++ "    if(!el) return;\n"
  ++ "    var action = el.getAttribute('data-action');\n"
  ++ "    if(action==='toggle-element') \x7b\n"
  ++ "      var id = el.getAttribute('data-target');\n"
  ++ "      if(!id) return;\n"
  ++ "      var section = document.getElementById(id);\n"
  ++ "      var toggle = document.getElementById('toggle-'+id);\n"
  ++ "      if(section)\x7b section.classList.toggle('collapsed'); \x7d\n"
  ++ "      if(toggle)\x7b toggle.classList.toggle('collapsed'); toggle.textContent = toggle.classList.contains('collapsed') ? '▶' : '▼'; \x7d\n"
  ++ "      return;\n"
  ++ "    \x7d\n"
  ++ "    var w = window;\n"
  ++ "    if(action==='toggle-node') \x7b\n"
  ++ "      var nid = el.getAttribute('data-node-id'); if(nid && w.toggleNode) w.toggleNode(nid);\n"
  ++ "    \x7d else if(action==='expand-all') \x7b\n"
  ++ "      if(w.expandAllNodes) w.expandAllNodes();\n"
  ++ "    \x7d else if(action==='export-image') \x7b\n"
  ++ "      // Disabled here to avoid double invocation; host script in provider handles export-image clicks.\n"
  ++ "      // if(w.exportAsImage) w.exportAsImage();\n"
  ++ "    \x7d else if(action==='toggle-contract') \x7b\n"
  ++ "      var name = el.getAttribute('data-contract'); if(name && w.toggleContract) w.toggleContract(name);\n"
  ++ "    \x7d else if(action==='load-content') \x7b\n"
  ++ "      var p = el.getAttribute('data-path'); var title = el.getAttribute('data-title'); if(p && w.loadContent) w.loadContent(p, title);\n"
  ++ "    \x7d\n"
  ++ "  \x7d);"

/-- The dark-theme stylesheet inlined by `injectPrism`
(generateCallGraph.ts lines 236-278). -/
def darkCss : String :=
  ":root \x7b --argus-bg: var(--vscode-editor-background); --argus-panel-bg: var(--vscode-editorWidget-background, #1e1e1e); --argus-border: var(--vscode-editorWidget-border, #333); --argus-accent: var(--vscode-editorLineNumber-activeForeground, #569CD6); --argus-text: var(--vscode-editor-foreground, #d4d4d4); \x7d\n"
  ++ "  body, .container, .functions-container, .node-header, .node-actions, .stats-panel, .element-content, .internal-function-code pre, .internal-function-callers, .internal-function-header \x7b background: var(--argus-panel-bg) !important; color: var(--argus-text) !important; \x7d\n"
  ++ "  body \x7b background: var(--argus-bg) !important; \x7d\n"
  ++ "  .container \x7b box-shadow: none !important; border:1px solid var(--argus-border); \x7d\n"
  ++ "  .node-header \x7b border:1px solid var(--argus-border); \x7d\n"
  ++ "  .node-header:hover \x7b background: rgba(255,255,255,0.05) !important; \x7d\n"
  ++ "  .node-content \x7b border:1px solid var(--argus-border); \x7d\n"
  ++ "  .stats-panel \x7b border:1px solid var(--argus-border); \x7d\n"
  ++ "  .element-item pre, .node-content pre, .internal-function-code pre \x7b background: #1e1e1e !important; \x7d\n"
  ++ "  .action-btn:hover, .export-btn:hover \x7b filter:brightness(1.1); \x7d\n"
  ++ "  .element-count \x7b background: linear-gradient(135deg,var(--argus-accent),#267dbe) !important; box-shadow:none !important; \x7d\n"
  ++ "  h1, .node-name, .internal-function-name, .element-label, .slot-label, .ruler-label, .ruler-tick \x7b color: var(--argus-text) !important; \x7d\n"
  ++ "  .byte-cell.empty \x7b background: rgba(86,156,214,0.15) !important; \x7d\n"
  ++ "  .byte-cell.occupied \x7b background: #0e639c !important; \x7d\n"
  ++ "  .warning-bg \x7b background:#3d3a1a !important; border-color:#776f2a !important; \x7d\n"
  ++ "  .danger-bg \x7b background:#5a1e23 !important; border-color:#7a2d33 !important; \x7d\n"
  ++ "  .info-panel \x7b background:#094771 !important; border-color:#0e639c !important; \x7d\n"
  ++ "  .element-item \x7b border-bottom:1px solid rgba(255,255,255,0.05) !important; \x7d\n"
  ++ "  .element-content.collapsed \x7b display:none !important; \x7d\n"
  ++ "  .slots-ruler \x7b border-bottom:1px solid var(--argus-border) !important; \x7d\n"
  ++ "  .ruler-byte \x7b background: rgba(86,156,214,0.08) !important; box-shadow: 0 0 0 0 black, 1px 0 0 0 #333 !important; \x7d\n"
  ++ "  .node-children \x7b border-left:2px solid var(--argus-accent) !important; \x7d\n"
  ++ "  .element-count \x7b color:#fff !important; \x7d\n"
  ++ "  .node-toggle \x7b color: var(--argus-accent) !important; \x7d\n"
  ++ "  .internal-function-callers \x7b background:#094771 !important; border-color:#0e639c !important; \x7d\n"
  ++ "  .caller-link \x7b color: var(--argus-accent) !important; \x7d\n"
  ++ "  /* Contract Elements sidebar overrides for dark theme */\n"
  ++ "  .contract-elements-sidebar .sidebar-content,\n"
  ++ "  .contract-elements-sidebar .element-content,\n"
  ++ "  .contract-elements-sidebar .node-header,\n"
  ++ "  .contract-elements-sidebar .element-item,\n"
  ++ "  .contract-elements-sidebar .sidebar-header h3 \x7b background: var(--argus-panel-bg) !important; color: var(--argus-text) !important; \x7d\n"
  ++ "  .contract-elements-sidebar .element-content \x7b border:1px solid var(--argus-border) !important; border-top:none !important; \x7d\n"
  ++ "  .contract-elements-sidebar .node-header \x7b background: var(--argus-panel-bg) !important; \x7d\n"
  ++ "  .contract-elements-sidebar .node-header:hover,\n"
  ++ "  .contract-elements-sidebar .element-item:hover \x7b background: rgba(255,255,255,0.05) !important; \x7d\n"
  ++ "  .contract-elements-sidebar .element-item \x7b transition: background-color .15s ease; \x7d\n"
  ++ "  .contract-elements-sidebar .element-toggle,\n"
  ++ "  .contract-elements-sidebar .element-label \x7b color: var(--argus-text) !important; \x7d\n"
  ++ "  .contract-elements-sidebar .element-count \x7b box-shadow:none !important; \x7d\n"
  ++ "  .contract-elements-sidebar .element-item pre \x7b background:#1e1e1e !important; \x7d\n"
  ++ "  .contract-elements-sidebar .element-item code \x7b color: var(--argus-text) !important; \x7d\n"

/-- `injectPrism` (generateCallGraph.ts lines 203-288): skip when the marker is
already present, otherwise inline the delegation script and dark stylesheet
just before `</body>` (first occurrence, as JS string-`replace` does) or, for
body-less fragments, in front of the markup. -/
def injectPrism (html : String) : String :=
  if hasSubS html "data-prism-inline" then html
  else
    let scriptTag := "<script data-prism-inline>" ++ delegationJs ++ "</script>"
    let darkStyle := "<style data-argus-dark>" ++ darkCss ++ "</style>"
    if hasSubS html "</body>" then
      replaceFirstS html "</body>" (darkStyle ++ scriptTag ++ "</body>")
    else darkStyle ++ scriptTag ++ html

/-- Split a character list on a separator character (JS `String.split`). -/
def splitOnCharGo (sep : Char) (acc : List Char) : List Char → List (List Char)
  | [] => [acc.reverse]
  | c :: cs =>
    if c == sep then acc.reverse :: splitOnCharGo sep [] cs
    else splitOnCharGo sep (c :: acc) cs

/-- `normalizePath` (generateCallGraph.ts line 184):
`p.split(path.sep).join('/')` with POSIX `path.sep = '/'`. -/
def normalizePath (p : String) : String :=
  ⟨((splitOnCharGo '/' [] p.data).intersperse "/".data).flatten⟩

/-- Trailing separators are ignored by Node's `path.basename`. -/
def dropTrailingSlashes (l : List Char) : List Char :=
  (l.reverse.dropWhile (fun c => c == '/')).reverse

/-- Node `path.basename(p)`: the last path component (the root-only edge case
`basename("/") = "/"` is not reproduced; no call site passes it). -/
def basenameStr (p : String) : String :=
  ⟨(splitOnCharGo '/' [] (dropTrailingSlashes p.data)).getLastD []⟩

/-- JS `s.endsWith(suffix)`. -/
def strEndsWith (s sfx : String) : Bool := sfx.data.isSuffixOf s.data

/-- JS `s.startsWith(pre)`. -/
def strStartsWith (s pre : String) : Bool := pre.data.isPrefixOf s.data

/-- `pathMatches` (generateCallGraph.ts lines 186-188). -/
def pathMatches (unitPath absP relP : String) : Bool :=
  unitPath == absP || unitPath == relP ||
  strEndsWith unitPath ("/" ++ basenameStr absP) ||
  strEndsWith unitPath ("/" ++ basenameStr relP)

/-- Node `path.join(a, b)` for the already-clean arguments used here. -/
def pathJoin (a b : String) : String := a ++ "/" ++ b

/-- A JSON value, as produced by `JSON.parse` of a build-info artifact. -/
inductive JsonVal where
  | null : JsonVal
  | bool (b : Bool) : JsonVal
  | num (n : Int) : JsonVal
  | str (s : String) : JsonVal
  | arr (elems : List JsonVal) : JsonVal
  | obj (fields : List (String × JsonVal)) : JsonVal

/-- JS truthiness of a parsed JSON value. -/
def jsTruthy : JsonVal → Bool
  | .null => false
  | .bool b => b
  | .num n => n != 0
  | .str s => s != ""
  | .arr _ => true
  | .obj _ => true

/-- JS property access `v.k` on a parsed JSON value (with `?.` semantics:
anything without such a property yields `undefined` = `none`). -/
def jsGet (v : JsonVal) (k : String) : Option JsonVal :=
  match v with
  | .obj fields => fields.lookup k
  | _ => none

/-- JS `Object.entries`/`Object.keys` source for the values reaching them here
(always parsed JSON objects). -/
def objFields : JsonVal → List (String × JsonVal)
  | .obj fields => fields
  | _ => []

/-- Modelled from the spec: the call-type classification of §4.3 ("internal /
external / inherited / library").  The `CallType` enum lives in the Argus
`types.ts`, which is not under `src/`. -/
inductive CallType where
  | internal : CallType
  | external : CallType
  | inherited : CallType
  | libraryCall : CallType
deriving DecidableEq, Repr

/-- A function definition of a contract as found in the parsed AST: name,
mutability class, and the call-type classification attached by the processor.
(The classification heuristics live in the missing `processor.ts`; here the
classification is carried as data.) -/
structure FunctionDef where
  name : String
  stateMutability : String
  callType : CallType
deriving DecidableEq, Repr

/-- A `ContractDefinition` node of a `SourceUnit` (solc-typed-ast): the fields
`generateCallGraph` reads, plus the member declarations the processor
collects. -/
structure ContractDefinition where
  name : String
  kind : String
  abstract : Bool
  fullyImplemented : Bool
  functions : List FunctionDef
  events : List String
  structs : List String
  errorDecls : List String
  enums : List String
  udvts : List String
deriving DecidableEq, Repr

/-- A parsed `SourceUnit` (solc-typed-ast): its absolute path and its
`ContractDefinition` children (`getChildrenByType(ContractDefinition)`). -/
structure SourceUnit where
  absolutePath : String
  contracts : List ContractDefinition
deriving DecidableEq, Repr

/-- One entry of `processed.vFunctions` as consumed by `generateCallGraph`
(the `f.ast instanceof FunctionDefinition ? getFunctionName(f.ast) : 'unknown'`
and `f.callType || CallType.Internal` accesses are modelled by carrying the
resolved name and call type directly). -/
structure ProcessedFn where
  name : String
  callType : CallType
deriving DecidableEq, Repr

/-- The result of `processContract` as consumed by `generateCallGraph`. -/
structure ProcessedContract where
  vFunctions : List ProcessedFn
  vEvents : List String
  vStructs : List String
  vErrors : List String
  vEnums : List String
  vUserDefinedValueTypes : List String
deriving DecidableEq, Repr

/-- Modelled from the spec: `processContract` (the Call Graph Builder of §4.3,
`processor.ts`, not under `src/`).  "Mutability filtering: by default, only
state-changing functions (not `view`/`pure`) are included as graph roots; an
`includeAll` flag admits view/pure functions as roots too."  The declaration
summary collects the contract's member declarations.  (`includeDeps` controls
subtree expansion, which does not affect the root list or summary.) -/
def processContract (c : ContractDefinition) (includeAll : Bool) (_includeDeps : Bool) :
    ProcessedContract :=
  { vFunctions :=
      (c.functions.filter (fun f =>
        includeAll || (f.stateMutability != "view" && f.stateMutability != "pure"))).map
          (fun f => { name := f.name, callType := f.callType })
  , vEvents := c.events
  , vStructs := c.structs
  , vErrors := c.errorDecls
  , vEnums := c.enums
  , vUserDefinedValueTypes := c.udvts }

/-- Modelled from the spec: `generateCombinedHTMLTree` (the Tree Renderer of
§4.4, the Argus `utils.ts`, not under `src/`).  Per §4.4 and §6, all
interactivity is expressed through data attributes consumed by the delegation
handler inlined by `injectPrism` (`data-action`, `data-node-id`,
`data-contract`), every expandable node carries a stable identifier, dynamic
text is HTML-escaped, and a declaration-summary panel follows the nodes. -/
def generateCombinedHTMLTree (vFunctions : List ProcessedFn) (contractName : String)
    (summary : ProcessedContract) (_includeAll : Bool) : String :=
  "<div class=\"container\"><h1>" ++ escapeHtml contractName ++ "</h1>"
  ++ String.join (vFunctions.map (fun f =>
      "<div class=\"node\" data-action=\"toggle-node\" data-node-id=\""
      ++ escapeHtml f.name ++ "\" data-contract=\"" ++ escapeHtml contractName
      ++ "\">" ++ escapeHtml f.name ++ "</div>"))
  ++ "<div class=\"stats-panel\">events: " ++ toString summary.vEvents.length
  ++ "</div></div>"

/-- The module-level `astCache` entry (generateCallGraph.ts line 291). -/
structure AstCacheEntry where
  file : String
  mtimeMs : Int
  asts : List SourceUnit
  sourceKeys : List String
deriving DecidableEq, Repr

/-- The value produced by `getCachedOrReadAsts`. -/
structure ReadAstsResult where
  asts : List SourceUnit
  debugSourceKeys : List String
deriving DecidableEq, Repr

/-- The per-entry guard of `getCachedOrReadAsts` (lines 301-307):
`value && typeof value === 'object' && value.ast` — a truthy object owning a
truthy `ast` property contributes its `ast`; any other entry is skipped (the
surrounding `try`/`catch` ignores bad entries). -/
def entryAst : JsonVal → Option JsonVal
  | .obj fields =>
    match List.lookup "ast" (fields) with
    | some a => if jsTruthy a then some a else none
    | none => none
  | _ => none

/-- The `solcSources` map built by `getCachedOrReadAsts` (the `{ AST: ... }`
wrapper required by the reader's input format is modelled by pairing each
path with its `ast` value). -/
def collectSolcSources (fields : List (String × JsonVal)) : List (String × JsonVal) :=
  fields.filterMap (fun pv => (entryAst pv.2).map (fun a => (pv.1, a)))

/-- The cache-miss branch of `getCachedOrReadAsts` (lines 300-317): build
`solcSources`, run the external `ASTReader.read` (`none` models a thrown
exception, caught and turned into `[]`), and, when the `stat` succeeded,
replace the single-entry cache wholesale.  The final `Bool` is the re-parse
instrumentation point: `true` means the reader ran. -/
def readAndCacheAsts (readerRead : List (String × JsonVal) → Option (List SourceUnit))
    (cache : Option AstCacheEntry) (latestFile : String) (stat : Option Int)
    (sourcesSection : JsonVal) : ReadAstsResult × Option AstCacheEntry × Bool :=
  let solcSources := collectSolcSources (objFields sourcesSection)
  let asts := (readerRead solcSources).getD []
  let newCache :=
    match stat with
    | some m => some { file := latestFile, mtimeMs := m, asts := asts
                     , sourceKeys := solcSources.map (fun pv => pv.1) }
    | none => cache
  ({ asts := asts, debugSourceKeys := solcSources.map (fun pv => pv.1) }, newCache, true)

/-- `getCachedOrReadAsts` (generateCallGraph.ts lines 294-318), with the
module-level cache made an explicit argument/result and the filesystem `stat`
(`mtimeMs`) and the external `ASTReader` supplied by the caller. -/
def getCachedOrReadAsts (readerRead : List (String × JsonVal) → Option (List SourceUnit))
    (cache : Option AstCacheEntry) (latestFile : String) (stat : Option Int)
    (sourcesSection : JsonVal) : ReadAstsResult × Option AstCacheEntry × Bool :=
  match stat, cache with
  | some m, some c =>
    if c.file == latestFile && c.mtimeMs == m then
      ({ asts := c.asts, debugSourceKeys := c.sourceKeys }, some c, false)
    else readAndCacheAsts readerRead (some c) latestFile (some m) sourcesSection
  | some m, none => readAndCacheAsts readerRead none latestFile (some m) sourcesSection
  | none, c => readAndCacheAsts readerRead c latestFile none sourcesSection

/-- `ArgusGenerateOptions` (generateCallGraph.ts lines 10-15). -/
structure ArgusGenerateOptions where
  source : String
  filePath : String
  includeAll : Bool
  includeDeps : Bool
deriving DecidableEq, Repr

/-- The `elementSummary` of one generated contract entry. -/
structure ElementSummary where
  events : Nat
  structs : Nat
  errors : Nat
  enums : Nat
  udts : Nat
deriving DecidableEq, Repr

/-- One entry of `ArgusGenerateResult.contracts`. -/
structure ContractEntry where
  name : String
  functions : List ProcessedFn
  elementSummary : ElementSummary
deriving DecidableEq, Repr

/-- `ArgusGenerateResult` (generateCallGraph.ts lines 17-27). -/
structure ArgusGenerateResult where
  html : String
  contracts : List ContractEntry
  errors : List String
  empty : Bool
  primaryContractName : Option String
deriving DecidableEq, Repr

/-- `stub` (generateCallGraph.ts lines 170-182). -/
def stub (message : String) (showBuild : Bool) : ArgusGenerateResult :=
  { html :=
      "<div style=\"font-family:var(--vscode-font-family);padding:16px;\">"
      ++ "<p>" ++ escapeHtml message ++ "</p>"
      ++ (if showBuild then
            "<div style=\"margin-top:8px;display:flex;gap:8px;\">"
            ++ "<button data-action=\"run-build\">Run Build</button>"
            ++ "</div>"
          else "")
      ++ "</div>"
  , contracts := []
  , errors := []
  , empty := true
  , primaryContractName := none }

/-- The normalized target paths of generateCallGraph.ts lines 77-79:
the absolute form and the workspace-relative form. -/
def targetPaths (filePath workspaceRoot : String) : String × String :=
  let absP := normalizePath filePath
  let wsNorm := normalizePath workspaceRoot ++ "/"
  let relP : String :=
    if strStartsWith absP wsNorm then ⟨absP.data.drop wsNorm.data.length⟩ else absP
  (absP, relP)

/-- The symbol-resolver lookup of generateCallGraph.ts line 80:
`asts.find(u => pathMatches(normalizePath(u.absolutePath), abs, rel))`. -/
def resolveTargetUnit (asts : List SourceUnit) (filePath workspaceRoot : String) :
    Option SourceUnit :=
  asts.find? (fun u =>
    pathMatches (normalizePath u.absolutePath) (targetPaths filePath workspaceRoot).1
      (targetPaths filePath workspaceRoot).2)

/-- The environment of one `generateCallGraph` run: the values obtained from
the workspace, filesystem, and external libraries. -/
structure ArgusEnv where
  /-- `vscode.workspace.workspaceFolders?.[0]?.uri.fsPath || process.cwd()`. -/
  workspaceRoot : String
  /-- `await findOutputDirectory(workspaceRoot)` (utils.ts). -/
  outDir : String
  /-- `await findLatestBuildInfoFile(buildInfoDir)`: the newest artifact. -/
  latestBuildInfo : Option String
  /-- `JSON.parse(await fs.promises.readFile(latest, 'utf8'))`; `.error msg`
  models a thrown read/parse error with message `msg`. -/
  buildInfoParse : Except String JsonVal
  /-- `fs.promises.stat(latest)`'s `mtimeMs`; `none` models a stat failure. -/
  statMtime : Option Int
  /-- The external `solc-typed-ast` `ASTReader.read`; `none` models a throw. -/
  readerRead : List (String × JsonVal) → Option (List SourceUnit)
  /-- `processContract` (processor.ts); `.error msg` models a throw during the
  expansion of one contract, caught per-contract by the builder. -/
  processOne : ContractDefinition → Bool → Bool → Except String ProcessedContract
  /-- `generateCombinedHTMLTree` (utils.ts): vFunctions, contract name,
  element lists, includeAll. -/
  genHtml : ProcessedContract → String → Bool → String

/-- The contract entry pushed by generateCallGraph.ts lines 117-130. -/
def mkContractEntry (c : ContractDefinition) (processed : ProcessedContract) : ContractEntry :=
  { name := c.name
  , functions := processed.vFunctions.map (fun f => { name := f.name, callType := f.callType })
  , elementSummary :=
    { events := processed.vEvents.length
    , structs := processed.vStructs.length
    , errors := processed.vErrors.length
    , enums := processed.vEnums.length
    , udts := processed.vUserDefinedValueTypes.length } }

/-- The contract loop of `generateCallGraph` (lines 95-140): skip definitions
that are not fully implemented, abstract, or not of `contract` kind; a thrown
expansion appends its message to `errors` and continues; a contract with no
eligible functions is skipped; the first successful contract is pushed and the
function returns at once (line 132, with `empty: contracts.length === 0`
evaluated after the push). -/
def buildContracts (env : ArgusEnv) (opts : ArgusGenerateOptions) :
    List ContractDefinition → List ContractEntry → List String → ArgusGenerateResult
  | [], contracts, errors =>
    if contracts.isEmpty then
      stub "No non-abstract contracts with eligible functions in this file." false
    else
      { html := "<div>Unknown state</div>", contracts := contracts, errors := errors
      , empty := false, primaryContractName := contracts.head?.map (fun e => e.name) }
  | c :: rest, contracts, errors =>
    if !c.fullyImplemented || c.abstract || c.kind != "contract" then
      buildContracts env opts rest contracts errors
    else
      match env.processOne c opts.includeAll opts.includeDeps with
      | .error e => buildContracts env opts rest contracts (errors ++ [e])
      | .ok processed =>
        if processed.vFunctions.length == 0 then
          buildContracts env opts rest contracts errors
        else
          let html := injectPrism (sanitizeGraphHtml
            (env.genHtml processed c.name opts.includeAll))
          let contracts2 := contracts ++ [mkContractEntry c processed]
          { html := html, contracts := contracts2, errors := errors
          , empty := contracts2.isEmpty
          , primaryContractName := contracts2.head?.map (fun e => e.name) }

/-- `generateCallGraph` (generateCallGraph.ts lines 44-150), with the explicit
AST cache threaded through.  Every failure path returns a `stub` result; the
outer `try`/`catch` of the source has no remaining throw sites in this total
model. -/
def generateCallGraph (env : ArgusEnv) (opts : ArgusGenerateOptions)
    (cache : Option AstCacheEntry) : ArgusGenerateResult × Option AstCacheEntry :=
  let buildInfoDir := pathJoin env.outDir "build-info"
  match env.latestBuildInfo with
  | none =>
    (stub ("No build-info artifacts found (expected in " ++ escapeHtml buildInfoDir
      ++ "). Click 'Run Build' to generate.") true, cache)
  | some latest =>
    match env.buildInfoParse with
    | .error msg => (stub ("Failed to read build-info file: " ++ msg) true, cache)
    | .ok raw =>
      match (jsGet raw "output").bind (fun o => jsGet o "sources") with
      | none =>
        (stub ("Build-info present but missing embedded AST (output.sources). "
          ++ "Re-run forge build --build-info with a profile that keeps AST, then retry.")
          true, cache)
      | some sect =>
        if !jsTruthy sect || (objFields sect).isEmpty then
          (stub ("Build-info present but missing embedded AST (output.sources). "
            ++ "Re-run forge build --build-info with a profile that keeps AST, then retry.")
            true, cache)
        else
          let rc := getCachedOrReadAsts env.readerRead cache latest env.statMtime sect
          let asts := rc.1.asts
          if asts.isEmpty then
            let keys := if !rc.1.debugSourceKeys.isEmpty then rc.1.debugSourceKeys
              else (objFields sect).map (fun pv => pv.1)
            (stub ("No ASTs parsed from build-info. (keys: "
              ++ escapeHtml (String.intercalate ", " keys) ++ ")") true, rc.2.1)
          else
            match resolveTargetUnit asts opts.filePath env.workspaceRoot with
            | none =>
              let unitPaths := asts.map (fun u => normalizePath u.absolutePath)
              let debugLines :=
                [ "Debug Info:"
                , " workspaceRoot: " ++ escapeHtml env.workspaceRoot
                , " filePathAbs: " ++ escapeHtml (targetPaths opts.filePath env.workspaceRoot).1
                , " filePathRel: " ++ escapeHtml (targetPaths opts.filePath env.workspaceRoot).2
                , " sourceUnits.count: " ++ toString asts.length
                , " sourceUnits.list:" ]
                ++ unitPaths.map (fun p => "  - " ++ escapeHtml p)
              let message := "Current file not present in latest build-info ("
                ++ escapeHtml (basenameStr latest) ++ "). Save & rebuild?"
              (stub (message
                ++ "<pre style=\"margin-top:12px;max-height:250px;overflow:auto;\">"
                ++ String.intercalate "\n" debugLines ++ "</pre>") true, rc.2.1)
            | some targetUnit =>
              (buildContracts env opts targetUnit.contracts [] [], rc.2.1)

/-- The state closed over by `resolveCustomTextEditor`
(argusEditorProvider.ts lines 776-791): the monotonically increasing
generation counter `genToken` and the webview's current HTML. -/
structure ShellState where
  gen : Nat
  html : String
deriving DecidableEq, Repr

/-- Issuing a generation request (`const token = ++genToken;` followed by
showing the loading HTML): returns the new state and the request's token. -/
def issueGen (s : ShellState) (loadingHtml : String) : ShellState × Nat :=
  ({ gen := s.gen + 1, html := loadingHtml }, s.gen + 1)

/-- Completion of a generation request (`if (token !== genToken) return;`
then `webviewPanel.webview.html = ...`): the result is applied only when the
request's token is still the latest issued. -/
def completeGen (s : ShellState) (token : Nat) (resultHtml : String) : ShellState :=
  if token = s.gen then { s with html := resultHtml } else s

/-- The export handler's filename sanitization (argusEditorProvider.ts line
850): `(suggested || inferredName).replace(/[^a-z0-9_.-]/gi, '_')`. -/
def sanitizeFileName (s : String) : String :=
  ⟨s.data.map (fun c =>
    if isAsciiLetter c || c.isDigit || c == '_' || c == '.' || c == '-' then c else '_')⟩

/-- `fileBase.replace(/\.png$/i, '')` (line 868). -/
def stripPngSuffix (s : String) : String :=
  if ".png".data.isSuffixOf (lowerL s.data) then ⟨s.data.take (s.data.length - 4)⟩ else s

/-- The `attempt`-th candidate filename of the export loop (lines 851-869):
the sanitized base first, then `stem-attempt.png`. -/
def candidateName (fileBase : String) (attempt : Nat) : String :=
  if attempt = 0 then fileBase
  else stripPngSuffix fileBase ++ "-" ++ toString attempt ++ ".png"

/-- The export collision loop (lines 852-870): starting from `attempt`, with
`remaining` tries left (50 at the top call), return the first candidate path
that does not exist (`fs.existsSync` is the `ex` oracle), or `none` when all
attempts are exhausted (the warning path, which performs no write). -/
def exportGo (ex : String → Bool) (baseDir fileBase : String) :
    Nat → Nat → Option String
  | _, 0 => none
  | attempt, remaining + 1 =>
    let candidate := pathJoin baseDir (candidateName fileBase attempt)
    if ex candidate then exportGo ex baseDir fileBase (attempt + 1) remaining
    else some candidate

/-- The path the export handler writes to (or `none` for the
"too many existing versions" warning path). -/
def exportImageTargetPath (ex : String → Bool) (baseDir fileBase : String) : Option String :=
  exportGo ex baseDir fileBase 0 50

/-! ### Concrete inputs used by counterexamples and witnesses -/

/-- A source unit whose path agrees with the target only on the basename. -/
def cexUnitBasename : SourceUnit := { absolutePath := "lib/Foo.sol", contracts := [] }

/-- A source unit whose normalized path equals the requested target path. -/
def cexUnitExact : SourceUnit := { absolutePath := "/ws/src/Foo.sol", contracts := [] }

/-- A source unit matching the target by no criterion at all. -/
def cexUnitOther : SourceUnit := { absolutePath := "src/Other.sol", contracts := [] }

/-- A well-formed, eligible contract with one state-changing function. -/
def cexContractOk : ContractDefinition :=
  { name := "Vault", kind := "contract", abstract := false, fullyImplemented := true
  , functions := [{ name := "deposit", stateMutability := "nonpayable", callType := .internal }]
  , events := [], structs := [], errorDecls := [], enums := [], udvts := [] }

/-- A minimal build-info artifact with one embedded AST entry. -/
def cexArtifact : JsonVal :=
  .obj [("output", .obj [("sources", .obj
    [("src/Foo.sol", .obj [("ast", .obj [("nodeType", .str "SourceUnit")])])])])]

/-- The parsed source unit of `cexArtifact`. -/
def cexUnitVault : SourceUnit := { absolutePath := "src/Foo.sol", contracts := [cexContractOk] }

/-- Generation options targeting `src/Foo.sol`. -/
def cexOpts : ArgusGenerateOptions :=
  { source := "", filePath := "src/Foo.sol", includeAll := false, includeDeps := false }

/-- An environment in which the whole pipeline succeeds on `cexUnitVault`. -/
def cexEnvBase : ArgusEnv :=
  { workspaceRoot := "/ws", outDir := "/ws/out"
  , latestBuildInfo := some "/ws/out/build-info/a.json"
  , buildInfoParse := .ok cexArtifact
  , statMtime := some 100
  , readerRead := fun _ => some [cexUnitVault]
  , processOne := fun c a d => Except.ok (processContract c a d)
  , genHtml := fun p n i => generateCombinedHTMLTree p.vFunctions n p i }

/-- The same environment, but expansion of every contract throws `"boom"`. -/
def cexEnvThrow : ArgusEnv := { cexEnvBase with processOne := fun _ _ _ => .error "boom" }

/-- The same environment, but the artifact file fails to parse as JSON. -/
def cexEnvParseFail : ArgusEnv :=
  { cexEnvBase with buildInfoParse := .error "Unexpected token o in JSON" }

/-- A hostile artifact: identifiers are arbitrary strings in build-info JSON,
and these ones are crafted so that removing one handler match splices a new
one together. -/
def hostileContract : ContractDefinition :=
  { name := "load=", kind := "contract", abstract := false, fullyImplemented := true
  , functions := [{ name := " on onx=", stateMutability := "nonpayable", callType := .internal }]
  , events := [], structs := [], errorDecls := [], enums := [], udvts := [] }

/-- The parsed source unit of the hostile artifact. -/
def hostileUnit : SourceUnit :=
  { absolutePath := "src/Hostile.sol", contracts := [hostileContract] }

/-- The hostile build-info artifact itself. -/
def hostileArtifact : JsonVal :=
  .obj [("output", .obj [("sources", .obj
    [("src/Hostile.sol", .obj [("ast", .obj [("nodeType", .str "SourceUnit")])])])])]

/-- An environment whose latest build artifact is the hostile one. -/
def cexEnvHostile : ArgusEnv :=
  { workspaceRoot := "/ws", outDir := "/ws/out"
  , latestBuildInfo := some "/ws/out/build-info/h.json"
  , buildInfoParse := .ok hostileArtifact
  , statMtime := some 1000
  , readerRead := fun _ => some [hostileUnit]
  , processOne := fun c a d => Except.ok (processContract c a d)
  , genHtml := fun p n i => generateCombinedHTMLTree p.vFunctions n p i }

/-- Generation options targeting the hostile file. -/
def hostileOpts : ArgusGenerateOptions :=
  { source := "", filePath := "src/Hostile.sol", includeAll := false, includeDeps := false }

/-- An existence oracle under which exactly the first three export candidates
for `g.png` exist on disk. -/
def cexExists3 : String → Bool := fun s =>
  s == "/ws/g.png" || s == "/ws/g-1.png" || s == "/ws/g-2.png"

/-! ### Theorems -/

/-- Every run of `generateCallGraph` either returns a `stub` result, or the
result of the contract loop (started with empty accumulators) on a target unit
obtained from a successful symbol-resolver lookup. -/
theorem generateCallGraph_cases (env : ArgusEnv) (opts : ArgusGenerateOptions)
    (cache : Option AstCacheEntry) :
    (∃ m b, (generateCallGraph env opts cache).1 = stub m b) ∨
    (∃ u : SourceUnit,
      (generateCallGraph env opts cache).1 = buildContracts env opts u.contracts [] [] ∧
      ∃ asts, resolveTargetUnit asts opts.filePath env.workspaceRoot = some u) := by
  unfold generateCallGraph
  cases hl : env.latestBuildInfo with
  | none => exact Or.inl ⟨_, _, rfl⟩
  | some latest =>
    dsimp only
    cases hp : env.buildInfoParse with
    | error msg => exact Or.inl ⟨_, _, rfl⟩
    | ok raw =>
      dsimp only
      cases hs : (jsGet raw "output").bind (fun o => jsGet o "sources") with
      | none => exact Or.inl ⟨_, _, rfl⟩
      | some sect =>
        dsimp only
        by_cases ht : (!jsTruthy sect || (objFields sect).isEmpty) = true
        · rw [if_pos ht]
          exact Or.inl ⟨_, _, rfl⟩
        · rw [if_neg ht]
          by_cases ha :
              (getCachedOrReadAsts env.readerRead cache latest env.statMtime sect).1.asts.isEmpty
                = true
          · rw [if_pos ha]
            exact Or.inl ⟨_, _, rfl⟩
          · rw [if_neg ha]
            cases hr : resolveTargetUnit
                (getCachedOrReadAsts env.readerRead cache latest env.statMtime sect).1.asts
                opts.filePath env.workspaceRoot with
            | none => exact Or.inl ⟨_, _, rfl⟩
            | some u => exact Or.inr ⟨u, rfl, _, hr⟩

/-- A `stub` result has no contracts. -/
theorem stub_contracts (m : String) (b : Bool) : (stub m b).contracts = [] := rfl

/-- A `stub` result's `empty` flag is set. -/
theorem stub_empty (m : String) (b : Bool) : (stub m b).empty = true := rfl

/-- A `stub` result has no errors. -/
theorem stub_errors (m : String) (b : Bool) : (stub m b).errors = [] := rfl

/-- The contract loop, started with an empty accumulator, returns at most one
contract entry: the first successful contract ends the loop. -/
theorem buildContracts_length_le (env : ArgusEnv) (opts : ArgusGenerateOptions) :
    ∀ (cs : List ContractDefinition) (errs : List String),
      (buildContracts env opts cs [] errs).contracts.length ≤ 1 := by
  intro cs
  induction cs with
  | nil => intro errs; simp [buildContracts, stub]
  | cons c rest ih =>
    intro errs
    simp only [buildContracts]
    split
    · exact ih errs
    · cases hp : env.processOne c opts.includeAll opts.includeDeps with
      | error e => exact ih (errs ++ [e])
      | ok processed =>
        dsimp only
        split
        · exact ih errs
        · simp

/-- The contract loop, started with an empty accumulator, sets `empty` exactly
when it produced no contract entry. -/
theorem buildContracts_empty_iff (env : ArgusEnv) (opts : ArgusGenerateOptions) :
    ∀ (cs : List ContractDefinition) (errs : List String),
      ((buildContracts env opts cs [] errs).empty = true ↔
        (buildContracts env opts cs [] errs).contracts = []) := by
  intro cs
  induction cs with
  | nil => intro errs; simp [buildContracts, stub]
  | cons c rest ih =>
    intro errs
    simp only [buildContracts]
    split
    · exact ih errs
    · cases hp : env.processOne c opts.includeAll opts.includeDeps with
      | error e => exact ih (errs ++ [e])
      | ok processed =>
        dsimp only
        split
        · exact ih errs
        · simp

/-- C9: for every invocation of `generateCallGraph`, the returned result's
contracts list has length at most 1 — the function returns immediately after
the first contract that processes successfully, so later eligible contracts of
the same source file are never listed in that result. -/
theorem c9_at_most_one_contract (env : ArgusEnv) (opts : ArgusGenerateOptions)
    (cache : Option AstCacheEntry) :
    ((generateCallGraph env opts cache).1).contracts.length ≤ 1 := by
  rcases generateCallGraph_cases env opts cache with ⟨m, b, h⟩ | ⟨u, h, -⟩
  · rw [h, stub_contracts]; simp
  · rw [h]; exact buildContracts_length_le env opts u.contracts []

/-- C10: every `ArgusGenerateResult` returned by `generateCallGraph` satisfies
`empty = true` iff its contracts list is empty: every stub and error path
returns `empty = true` with zero contracts, and the success path returns
`empty = false` with a non-empty contracts list. -/
theorem c10_empty_iff_no_contracts (env : ArgusEnv) (opts : ArgusGenerateOptions)
    (cache : Option AstCacheEntry) :
    ((generateCallGraph env opts cache).1).empty = true ↔
      ((generateCallGraph env opts cache).1).contracts = [] := by
  rcases generateCallGraph_cases env opts cache with ⟨m, b, h⟩ | ⟨u, h, -⟩
  · rw [h, stub_contracts, stub_empty]; simp
  · rw [h]; exact buildContracts_empty_iff env opts u.contracts []

/-- C2: if generation request G1 is issued and, before it completes, request
G2 is issued (so G2 holds the latest generation-counter value), then after
G2's completion has applied its result, G1's late completion is discarded: it
leaves the webview state exactly as G2's completion set it. -/
theorem c2_stale_generation_discarded (s0 : ShellState) (l1 l2 h1 h2 : String) :
    completeGen (completeGen (issueGen (issueGen s0 l1).1 l2).1
        (issueGen (issueGen s0 l1).1 l2).2 h2) (issueGen s0 l1).2 h1
      = completeGen (issueGen (issueGen s0 l1).1 l2).1
          (issueGen (issueGen s0 l1).1 l2).2 h2 ∧
    (completeGen (issueGen (issueGen s0 l1).1 l2).1
        (issueGen (issueGen s0 l1).1 l2).2 h2).html = h2 := by
  constructor
  · simp [issueGen, completeGen]
  · simp [issueGen, completeGen]

/-- C1 counterexample: a SourceUnit set containing both an exact-path unit and
a basename-only unit for which the resolver selects the basename-only unit,
because it comes first in iteration order — the criteria priority inside
`pathMatches` does not impose a priority between units. -/
theorem c1_exact_path_counterexample :
    resolveTargetUnit [cexUnitBasename, cexUnitExact] "/ws/src/Foo.sol" "/ws"
        = some cexUnitBasename
    ∧ normalizePath cexUnitExact.absolutePath = (targetPaths "/ws/src/Foo.sol" "/ws").1
    ∧ normalizePath cexUnitBasename.absolutePath ≠ (targetPaths "/ws/src/Foo.sol" "/ws").1
    ∧ normalizePath cexUnitBasename.absolutePath ≠ (targetPaths "/ws/src/Foo.sol" "/ws").2
    ∧ pathMatches (normalizePath cexUnitBasename.absolutePath)
        (targetPaths "/ws/src/Foo.sol" "/ws").1 (targetPaths "/ws/src/Foo.sol" "/ws").2
        = true
    ∧ cexUnitBasename ≠ cexUnitExact := by
  refine ⟨by decide, by decide, by decide, by decide, by decide, by decide⟩

/-- C1 amended: per unit, the three criteria are tried in priority order as a
short-circuited disjunction, and the resolver returns the first unit in list
order satisfying any criterion; hence the exact-path unit is selected whenever
no earlier unit matches by any criterion. -/
theorem c1_first_match_in_list_order (pre post : List SourceUnit) (u : SourceUnit)
    (filePath workspaceRoot : String)
    (hexact : normalizePath u.absolutePath = (targetPaths filePath workspaceRoot).1)
    (hpre : ∀ v ∈ pre, pathMatches (normalizePath v.absolutePath)
        (targetPaths filePath workspaceRoot).1 (targetPaths filePath workspaceRoot).2 = false) :
    resolveTargetUnit (pre ++ u :: post) filePath workspaceRoot = some u := by
  unfold resolveTargetUnit
  induction pre with
  | nil =>
    rw [List.nil_append]
    apply List.find?_cons_of_pos
    simp [pathMatches, hexact]
  | cons v pre' ih =>
    rw [List.cons_append]
    rw [List.find?_cons_of_neg _ (by simp [hpre v (by simp)])]
    exact ih (fun w hw => hpre w (by simp [hw]))

/-- Witness for the amended C1: with a non-matching unit in front, the
exact-path unit is selected. -/
theorem c1_first_match_in_list_order_witness :
    resolveTargetUnit [cexUnitOther, cexUnitExact] "/ws/src/Foo.sol" "/ws"
      = some cexUnitExact :=
  c1_first_match_in_list_order [cexUnitOther] [] cexUnitExact "/ws/src/Foo.sol" "/ws"
    (by decide) (by decide)

/-- C3: an individual source entry that does not carry a usable AST is skipped
by the loader without affecting the units produced for the remaining entries;
and an artifact whose top-level JSON fails to parse yields the user-facing
`stub` error result (zero SourceUnits, `empty = true`) instead of an
exception. -/
theorem c3_entry_failure_tolerated_artifact_failure_fatal :
    (∀ (reader : List (String × JsonVal) → Option (List SourceUnit))
       (cache : Option AstCacheEntry) (f : String) (stat : Option Int)
       (pre post : List (String × JsonVal)) (p : String) (v : JsonVal),
       entryAst v = none →
       getCachedOrReadAsts reader cache f stat (.obj (pre ++ (p, v) :: post))
         = getCachedOrReadAsts reader cache f stat (.obj (pre ++ post)))
    ∧ (∀ (env : ArgusEnv) (opts : ArgusGenerateOptions) (cache : Option AstCacheEntry)
        (latest msg : String),
        env.latestBuildInfo = some latest → env.buildInfoParse = .error msg →
        (generateCallGraph env opts cache).1
          = stub ("Failed to read build-info file: " ++ msg) true) := by
  constructor
  · intro reader cache f stat pre post p v hv
    have hc : collectSolcSources (pre ++ (p, v) :: post) = collectSolcSources (pre ++ post) := by
      simp [collectSolcSources, List.filterMap_append, List.filterMap_cons, hv]
    cases stat with
    | none => simp [getCachedOrReadAsts, readAndCacheAsts, objFields, hc]
    | some m =>
      cases cache with
      | none => simp [getCachedOrReadAsts, readAndCacheAsts, objFields, hc]
      | some c =>
        by_cases h : (c.file == f && c.mtimeMs == m) = true <;>
          simp [getCachedOrReadAsts, readAndCacheAsts, objFields, hc, h]
  · intro env opts cache latest msg h1 h2
    unfold generateCallGraph
    rw [h1, h2]

/-- Witness for C3: a concrete malformed entry is skipped without changing the
loader's output, and a concrete environment with unparsable build-info JSON
produces the stub error result. -/
theorem c3_entry_failure_witness :
    (getCachedOrReadAsts (fun _ => some [cexUnitVault]) none "a.json" (some 1)
        (.obj ([("src/Foo.sol", .obj [("ast", .obj [("x", .num 1)])])]
          ++ ("bad", .str "oops") :: []))
      = getCachedOrReadAsts (fun _ => some [cexUnitVault]) none "a.json" (some 1)
        (.obj ([("src/Foo.sol", .obj [("ast", .obj [("x", .num 1)])])] ++ [])))
    ∧ (generateCallGraph cexEnvParseFail cexOpts none).1
        = stub ("Failed to read build-info file: " ++ "Unexpected token o in JSON") true :=
  ⟨c3_entry_failure_tolerated_artifact_failure_fatal.1 _ none "a.json" (some 1)
      [("src/Foo.sol", .obj [("ast", .obj [("x", .num 1)])])] [] "bad" (.str "oops") rfl,
    c3_entry_failure_tolerated_artifact_failure_fatal.2 cexEnvParseFail cexOpts none
      "/ws/out/build-info/a.json" "Unexpected token o in JSON" rfl rfl⟩

/-- C5: a second loader call with the same artifact path and unchanged
modification time is a cache hit — no re-parse, the cached units are returned
and the cache is unchanged; while a call whose path or modification time
differs from the cached entry re-parses and wholly replaces the single-entry
cache with the new `(path, mtime, asts)` entry. -/
theorem c5_cache_hit_and_replacement :
    (∀ (reader : List (String × JsonVal) → Option (List SourceUnit))
       (c0 : Option AstCacheEntry) (f : String) (m : Int) (sect : JsonVal),
       (getCachedOrReadAsts reader
           (getCachedOrReadAsts reader c0 f (some m) sect).2.1 f (some m) sect).2.2 = false
       ∧ (getCachedOrReadAsts reader
           (getCachedOrReadAsts reader c0 f (some m) sect).2.1 f (some m) sect).1.asts
         = (getCachedOrReadAsts reader c0 f (some m) sect).1.asts
       ∧ (getCachedOrReadAsts reader
           (getCachedOrReadAsts reader c0 f (some m) sect).2.1 f (some m) sect).2.1
         = (getCachedOrReadAsts reader c0 f (some m) sect).2.1)
    ∧ (∀ (reader : List (String × JsonVal) → Option (List SourceUnit))
        (f : String) (m : Int) (asts : List SourceUnit) (keys : List String)
        (f' : String) (m' : Int) (sect : JsonVal), f' ≠ f ∨ m' ≠ m →
        getCachedOrReadAsts reader (some ⟨f, m, asts, keys⟩) f' (some m') sect
          = ({ asts := (reader (collectSolcSources (objFields sect))).getD []
             , debugSourceKeys := (collectSolcSources (objFields sect)).map (fun pv => pv.1) }
            , some ⟨f', m', (reader (collectSolcSources (objFields sect))).getD []
                  , (collectSolcSources (objFields sect)).map (fun pv => pv.1)⟩
            , true)) := by
  constructor
  · intro reader c0 f m sect
    cases c0 with
    | none => simp [getCachedOrReadAsts, readAndCacheAsts]
    | some c =>
      by_cases h : (c.file == f && c.mtimeMs == m) = true <;>
        simp [getCachedOrReadAsts, readAndCacheAsts, h]
  · intro reader f m asts keys f' m' sect h
    have hcond : (f == f' && m == m') = false := by
      rcases h with h | h
      · simp [beq_iff_eq, Ne.symm h]
      · simp [beq_iff_eq, Ne.symm h]
    simp [getCachedOrReadAsts, readAndCacheAsts, hcond]

/-- Witness for C5: replacing a stale cache entry for `("a.json", 1)` by a
read keyed `("b.json", 2)`. -/
theorem c5_cache_replacement_witness :
    getCachedOrReadAsts (fun _ => some [cexUnitVault]) (some ⟨"a.json", 1, [], []⟩)
        "b.json" (some 2) .null
      = ({ asts := [cexUnitVault], debugSourceKeys := [] }
        , some ⟨"b.json", 2, [cexUnitVault], []⟩, true) := by
  have h := c5_cache_hit_and_replacement.2 (fun _ => some [cexUnitVault])
    "a.json" 1 [] [] "b.json" 2 .null (Or.inl (by decide))
  simpa [collectSolcSources, objFields] using h

/-- C4 counterexample: in an environment whose only contract's expansion
throws `"boom"`, `generateCallGraph` falls through to the no-eligible-contract
stub, whose errors list is empty — the captured message is *not* appended to
the returned result's errors list. -/
theorem c4_error_list_dropped_counterexample :
    cexEnvThrow.processOne cexContractOk cexOpts.includeAll cexOpts.includeDeps
        = .error "boom"
    ∧ (generateCallGraph cexEnvThrow cexOpts none).1.errors = []
    ∧ (generateCallGraph cexEnvThrow cexOpts none).1.empty = true := by
  refine ⟨rfl, by decide, by decide⟩

/-- C4 amended: a thrown contract expansion is captured (message accumulated)
and the builder proceeds to the next contract rather than aborting; the
accumulated messages appear in the returned errors list whenever the pass ends
with a successfully rendered contract (when no contract succeeds, the stub
fallback of line 138 discards them). -/
theorem c4_amended_error_capture :
    (∀ (env : ArgusEnv) (opts : ArgusGenerateOptions) (c : ContractDefinition)
       (rest : List ContractDefinition) (acc : List ContractEntry) (errs : List String)
       (msg : String),
       (!c.fullyImplemented || c.abstract || c.kind != "contract") = false →
       env.processOne c opts.includeAll opts.includeDeps = .error msg →
       buildContracts env opts (c :: rest) acc errs
         = buildContracts env opts rest acc (errs ++ [msg]))
    ∧ (∀ (env : ArgusEnv) (opts : ArgusGenerateOptions) (cs : List ContractDefinition)
        (acc : List ContractEntry) (errs : List String) (m : String), m ∈ errs →
        (buildContracts env opts cs acc errs).contracts ≠ [] →
        m ∈ (buildContracts env opts cs acc errs).errors) := by
  constructor
  · intro env opts c rest acc errs msg helig hproc
    simp [buildContracts, helig, hproc]
  · intro env opts cs
    induction cs with
    | nil =>
      intro acc errs m hm hne
      simp only [buildContracts] at hne ⊢
      by_cases ha : acc.isEmpty
      · rw [if_pos ha] at hne
        exact absurd (stub_contracts _ _) hne
      · rw [if_neg ha] at hne ⊢
        exact hm
    | cons c rest ih =>
      intro acc errs m hm hne
      simp only [buildContracts] at hne ⊢
      by_cases helig : (!c.fullyImplemented || c.abstract || c.kind != "contract") = true
      · simp only [helig, if_true] at hne ⊢
        exact ih acc errs m hm hne
      · have hf : (!c.fullyImplemented || c.abstract || c.kind != "contract") = false := by
          simpa using helig
        simp only [hf, Bool.false_eq_true, if_false] at hne ⊢
        cases hp : env.processOne c opts.includeAll opts.includeDeps with
        | error e =>
          simp only [hp] at hne ⊢
          exact ih acc (errs ++ [e]) m (by simp [hm]) hne
        | ok processed =>
          simp only [hp] at hne ⊢
          by_cases hz : (processed.vFunctions.length == 0) = true
          · simp only [hz, if_true] at hne ⊢
            exact ih acc errs m hm hne
          · simp only [hz, Bool.false_eq_true, if_false] at hne ⊢
            exact hm

/-- Witness for the amended C4: the throwing contract's message is
accumulated while the loop proceeds, and an accumulated message is in the
returned errors list when a contract succeeds. -/
theorem c4_amended_error_capture_witness :
    buildContracts cexEnvThrow cexOpts [cexContractOk] [] []
      = buildContracts cexEnvThrow cexOpts [] [] ([] ++ ["boom"])
    ∧ "boom" ∈ (buildContracts cexEnvBase cexOpts [cexContractOk] [] ["boom"]).errors :=
  ⟨c4_amended_error_capture.1 cexEnvThrow cexOpts cexContractOk [] [] [] "boom"
      (by decide) rfl,
    c4_amended_error_capture.2 cexEnvBase cexOpts [cexContractOk] [] ["boom"] "boom"
      (by simp) (by decide)⟩

/-- One step of the export collision loop. -/
theorem exportGo_step (ex : String → Bool) (bd fb : String) (a r : Nat) :
    exportGo ex bd fb a (r + 1)
      = if ex (pathJoin bd (candidateName fb a)) then exportGo ex bd fb (a + 1) r
        else some (pathJoin bd (candidateName fb a)) := rfl

/-- Soundness of the export collision loop: a returned path is the first
non-existing candidate in the window it examined. -/
theorem exportGo_sound (ex : String → Bool) (bd fb : String) :
    ∀ (r a : Nat) (p : String), exportGo ex bd fb a r = some p →
      ex p = false ∧ ∃ k, k < r ∧ p = pathJoin bd (candidateName fb (a + k))
        ∧ ∀ j, j < k → ex (pathJoin bd (candidateName fb (a + j))) = true := by
  intro r
  induction r with
  | zero => intro a p h; simp [exportGo] at h
  | succ r ih =>
    intro a p h
    rw [exportGo_step] at h
    by_cases hex : ex (pathJoin bd (candidateName fb a)) = true
    · rw [if_pos hex] at h
      obtain ⟨hfalse, k, hk, hp, hall⟩ := ih (a + 1) p h
      refine ⟨hfalse, k + 1, by omega, ?_, ?_⟩
      · rw [hp]; congr 2; omega
      · intro j hj
        cases j with
        | zero => simpa using hex
        | succ j' =>
          have := hall j' (by omega)
          have harith : a + 1 + j' = a + (j' + 1) := by omega
          rwa [harith] at this
    · rw [if_neg hex] at h
      have hp : pathJoin bd (candidateName fb a) = p := by injection h
      refine ⟨?_, 0, by omega, by rw [← hp, Nat.add_zero], by omega⟩
      rw [← hp]
      simpa using hex

/-- The export collision loop returns the first non-existing candidate. -/
theorem exportGo_finds (ex : String → Bool) (bd fb : String) :
    ∀ (k r a : Nat), k < r →
      (∀ j, j < k → ex (pathJoin bd (candidateName fb (a + j))) = true) →
      ex (pathJoin bd (candidateName fb (a + k))) = false →
      exportGo ex bd fb a r = some (pathJoin bd (candidateName fb (a + k))) := by
  intro k
  induction k with
  | zero =>
    intro r a hr hall hex
    cases r with
    | zero => omega
    | succ r' =>
      rw [exportGo_step, if_neg (by simpa using hex), Nat.add_zero]
  | succ k ih =>
    intro r a hr hall hex
    cases r with
    | zero => omega
    | succ r' =>
      rw [exportGo_step, if_pos (by simpa using hall 0 (by omega))]
      have harith : a + (k + 1) = a + 1 + k := by omega
      rw [harith] at hex ⊢
      exact ih r' (a + 1) (by omega)
        (fun j hj => by
          have := hall (j + 1) (by omega)
          have h2 : a + (j + 1) = a + 1 + j := by omega
          rwa [h2] at this)
        hex

/-- If every candidate in the window exists, the loop exhausts and returns
`none` (no write). -/
theorem exportGo_exhausted (ex : String → Bool) (bd fb : String) :
    ∀ (r a : Nat),
      (∀ k, k < r → ex (pathJoin bd (candidateName fb (a + k))) = true) →
      exportGo ex bd fb a r = none := by
  intro r
  induction r with
  | zero => intro a _; rfl
  | succ r ih =>
    intro a h
    rw [exportGo_step, if_pos (by simpa using h 0 (by omega))]
    exact ih (a + 1) (fun k hk => by
      have := h (k + 1) (by omega)
      have h2 : a + (k + 1) = a + 1 + k := by omega
      rwa [h2] at this)

/-- C6: the export routine writes only to a candidate that does not exist
(never overwriting), chooses the first available candidate (base name, then
`stem-1.png`, `stem-2.png`, ...), picks the 4th candidate when the first three
exist, and gives up with no write after 50 exhausted candidates. -/
theorem c6_export_collision_avoidance :
    (∀ (ex : String → Bool) (baseDir sug p : String),
       exportImageTargetPath ex baseDir (sanitizeFileName sug) = some p →
       ex p = false
       ∧ ∃ a, a < 50 ∧ p = pathJoin baseDir (candidateName (sanitizeFileName sug) a)
           ∧ ∀ j, j < a → ex (pathJoin baseDir (candidateName (sanitizeFileName sug) j)) = true)
    ∧ (∀ (ex : String → Bool) (baseDir fb : String),
       ex (pathJoin baseDir (candidateName fb 0)) = true →
       ex (pathJoin baseDir (candidateName fb 1)) = true →
       ex (pathJoin baseDir (candidateName fb 2)) = true →
       ex (pathJoin baseDir (candidateName fb 3)) = false →
       exportImageTargetPath ex baseDir fb = some (pathJoin baseDir (candidateName fb 3)))
    ∧ (∀ (ex : String → Bool) (baseDir fb : String),
       (∀ a, a < 50 → ex (pathJoin baseDir (candidateName fb a)) = true) →
       exportImageTargetPath ex baseDir fb = none) := by
  refine ⟨?_, ?_, ?_⟩
  · intro ex baseDir sug p h
    obtain ⟨hfalse, k, hk, hp, hall⟩ := exportGo_sound ex baseDir (sanitizeFileName sug) 50 0 p h
    exact ⟨hfalse, k, hk, by simpa using hp, fun j hj => by simpa using hall j hj⟩
  · intro ex baseDir fb h0 h1 h2 h3
    have := exportGo_finds ex baseDir fb 3 50 0 (by omega)
      (fun j hj => by
        interval_cases j
        · simpa using h0
        · simpa using h1
        · simpa using h2)
      (by simpa using h3)
    simpa [exportImageTargetPath] using this
  · intro ex baseDir fb h
    exact exportGo_exhausted ex baseDir fb 50 0 (fun k hk => by simpa using h k hk)

/-- Witness for C6: with exactly `g.png`, `g-1.png`, `g-2.png` existing, the
4th candidate `g-3.png` is chosen. -/
theorem c6_export_collision_avoidance_witness :
    exportImageTargetPath cexExists3 "/ws" "g.png"
      = some (pathJoin "/ws" (candidateName "g.png" 3)) :=
  c6_export_collision_avoidance.2.1 cexExists3 "/ws" "g.png"
    (by decide) (by decide) (by decide) (by decide)

/-- With the spec-modelled builder, every entry produced by the contract loop
(from an empty accumulator) comes from a fully-implemented, non-abstract,
`contract`-kind definition with at least one eligible function after
mutability filtering. -/
theorem buildContracts_mem (env : ArgusEnv) (opts : ArgusGenerateOptions)
    (hmodel : env.processOne = fun c a d => Except.ok (processContract c a d)) :
    ∀ (cs : List ContractDefinition) (errs : List String) (e : ContractEntry),
      e ∈ (buildContracts env opts cs [] errs).contracts →
      ∃ c ∈ cs, c.fullyImplemented = true ∧ c.abstract = false ∧ c.kind = "contract"
        ∧ (processContract c opts.includeAll opts.includeDeps).vFunctions ≠ []
        ∧ e = mkContractEntry c (processContract c opts.includeAll opts.includeDeps) := by
  intro cs
  induction cs with
  | nil =>
    intro errs e he
    simp [buildContracts, stub] at he
  | cons c rest ih =>
    intro errs e he
    simp only [buildContracts] at he
    by_cases helig : (!c.fullyImplemented || c.abstract || c.kind != "contract") = true
    · simp only [helig, if_true] at he
      obtain ⟨c', hc', hrest⟩ := ih errs e he
      exact ⟨c', by simp [hc'], hrest⟩
    · have hf : (!c.fullyImplemented || c.abstract || c.kind != "contract") = false := by
        simpa using helig
      have hsplit := Bool.or_eq_false_iff.mp hf
      have h12 := Bool.or_eq_false_iff.mp hsplit.1
      have himpl : c.fullyImplemented = true := by simpa using h12.1
      have habs : c.abstract = false := h12.2
      have hkind : c.kind = "contract" := by simpa using hsplit.2
      simp only [hf, Bool.false_eq_true, if_false, hmodel] at he
      by_cases hz :
          ((processContract c opts.includeAll opts.includeDeps).vFunctions.length == 0) = true
      · simp only [hz, if_true] at he
        obtain ⟨c', hc', hrest⟩ := ih errs e he
        exact ⟨c', by simp [hc'], hrest⟩
      · simp only [hz, Bool.false_eq_true, if_false] at he
        have hne : (processContract c opts.includeAll opts.includeDeps).vFunctions ≠ [] := by
          intro hnil
          exact hz (by simp [hnil])
        simp only [List.nil_append, List.mem_singleton] at he
        exact ⟨c, by simp, himpl, habs, hkind, hne, he⟩

/-- C7: with the spec-modelled builder, a call-graph entry is produced only
for a fully-implemented, non-abstract, `contract`-kind definition of the
resolved target unit that retains at least one eligible function after
mutability filtering; and a contract with zero eligible functions is skipped
without contributing an error. -/
theorem c7_eligibility_filter :
    (∀ (env : ArgusEnv) (opts : ArgusGenerateOptions) (cache : Option AstCacheEntry)
       (e : ContractEntry),
       env.processOne = (fun c a d => Except.ok (processContract c a d)) →
       e ∈ ((generateCallGraph env opts cache).1).contracts →
       ∃ asts u, resolveTargetUnit asts opts.filePath env.workspaceRoot = some u
         ∧ ∃ c ∈ u.contracts, c.fullyImplemented = true ∧ c.abstract = false
           ∧ c.kind = "contract"
           ∧ (processContract c opts.includeAll opts.includeDeps).vFunctions ≠ []
           ∧ e = mkContractEntry c (processContract c opts.includeAll opts.includeDeps))
    ∧ (∀ (env : ArgusEnv) (opts : ArgusGenerateOptions) (c : ContractDefinition)
        (rest : List ContractDefinition) (acc : List ContractEntry) (errs : List String),
        (!c.fullyImplemented || c.abstract || c.kind != "contract") = false →
        env.processOne c opts.includeAll opts.includeDeps
          = Except.ok (processContract c opts.includeAll opts.includeDeps) →
        (processContract c opts.includeAll opts.includeDeps).vFunctions = [] →
        buildContracts env opts (c :: rest) acc errs
          = buildContracts env opts rest acc errs) := by
  constructor
  · intro env opts cache e hmodel he
    rcases generateCallGraph_cases env opts cache with ⟨m, b, h⟩ | ⟨u, h, asts, hu⟩
    · rw [h, stub_contracts] at he
      exact absurd he (List.not_mem_nil e)
    · rw [h] at he
      obtain ⟨c, hc, hrest⟩ := buildContracts_mem env opts hmodel u.contracts [] e he
      exact ⟨asts, u, hu, c, hc, hrest⟩
  · intro env opts c rest acc errs helig hproc hnil
    simp [buildContracts, helig, hproc, hnil]

/-- Witness for C7: the entry generated for `Vault` comes from an eligible
contract of the resolved unit. -/
theorem c7_eligibility_filter_witness :
    ∃ asts u, resolveTargetUnit asts cexOpts.filePath cexEnvBase.workspaceRoot = some u
      ∧ ∃ c ∈ u.contracts, c.fullyImplemented = true ∧ c.abstract = false
        ∧ c.kind = "contract"
        ∧ (processContract c cexOpts.includeAll cexOpts.includeDeps).vFunctions ≠ []
        ∧ mkContractEntry cexContractOk
            (processContract cexContractOk cexOpts.includeAll cexOpts.includeDeps)
          = mkContractEntry c (processContract c cexOpts.includeAll cexOpts.includeDeps) :=
  c7_eligibility_filter.1 cexEnvBase cexOpts none
    (mkContractEntry cexContractOk
      (processContract cexContractOk cexOpts.includeAll cexOpts.includeDeps))
    rfl (by decide)

/-- A handler-attribute match in a suffix remains a match of the whole list. -/
theorem hasOnAttrL_append_right (x y : List Char) (h : hasOnAttrL y = true) :
    hasOnAttrL (x ++ y) = true := by
  induction x with
  | nil => simpa using h
  | cons c t ih => simp [hasOnAttrL, ih]

/-- `String.append` at the level of character data. -/
theorem strData_append (a b : String) : (a ++ b).data = a.data ++ b.data := by
  cases a; cases b; rfl

/-- A handler attribute in a string suffix survives prepending. -/
theorem hasOnAttr_append_right (a b : String) (h : hasOnAttr b = true) :
    hasOnAttr (a ++ b) = true := by
  unfold hasOnAttr
  rw [strData_append]
  exact hasOnAttrL_append_right a.data b.data h

/-- C8 (code bug): running the whole modelled pipeline on a hostile artifact
whose contract is named `load=` with a function named ` on onx=` succeeds
(one contract entry) while the returned HTML still contains an inline
event-handler attribute — the single left-to-right sanitizer pass splices
` onload="..."` together out of the two removals' surroundings. -/
theorem c8_sanitizer_splice_bug :
    ((generateCallGraph cexEnvHostile hostileOpts none).1).contracts.length = 1
    ∧ hasOnAttr ((generateCallGraph cexEnvHostile hostileOpts none).1).html = true := by
  constructor
  · rfl
  · have hshape : ((generateCallGraph cexEnvHostile hostileOpts none).1).html
        = ("<style data-argus-dark>" ++ darkCss ++ "</style>"
            ++ ("<script data-prism-inline>" ++ delegationJs ++ "</script>"))
          ++ sanitizeGraphHtml (generateCombinedHTMLTree
              (processContract hostileContract false false).vFunctions "load="
              (processContract hostileContract false false) false) := by rfl
    rw [hshape]
    exact hasOnAttr_append_right _ _ (by decide)

end ArgusVerify
